import Mathlib

/-!
Verification of the label-rendering engine of
`src/pages/label.py` (Amazon-Seller-Settlement-Analysis).

The Python functions `create_label_from_data`, `generate_png_labels`,
`add_high_quality_barcode`, `draw_visual_barcode_scaled` and
`add_logo_to_image` are shallowly embedded as executable Lean
definitions.  Modelling conventions, fixed once for the whole file:

* A pandas row is a partial map `String → Option String`: `none` models a
  field that is absent from the row or whose value is null/NaN
  (`var in row_data and pd.notna(row_data[var])` collapses to one check);
  `some v` models a present non-null value, already passed through `str`.
* Python exceptions are modelled by `Option`: a function that can raise
  returns `none` exactly where the Python code raises; a `try/except`
  becomes a `match` on that `Option`.
* Pillow images are abstracted to their pixel dimensions (`LImage`), and
  drawing calls to the rectangles they paint (`Rect`): no claim in scope
  depends on deeper raster content.
* `draw.textlength(s, font)` is an external font metric.  It is modelled
  as a uniform character width: a parameter `cw` (pixels per character at
  the font in play) with `textlength s = s.length * cw`, and per font
  size as a family `cwOf : Nat → Nat`.  Python's float arithmetic on
  these integer quantities is modelled exactly (flooring where Python
  applies `int` or `//`).
* `load_high_quality_font` performs file-system lookups; it is modelled
  by a parameter `fontOk : Nat → Bool` telling whether a font resource
  loads at a given pixel size (`false` models `None`, which callers skip).
* The `barcode` library is an external dependency: parameters
  `available : Bool` (the module imported) and
  `encode : String → Option LImage` (`code128.render`, `none` = raises).
-/

/-! ## Python string primitives

`String.replace`, `str.strip`, `str.split(sep, 1)` and `str.endswith`
are re-implemented over `List Char` so that every definition reduces in
the kernel.  Each mirrors the CPython behaviour used by the source.
-/

/-- One pass of Python `str.replace`: scan left to right, replace every
non-overlapping occurrence of `pat` by `repl`, continue after the
replacement.  `fuel` bounds the recursion; `fuel = length` suffices since
every step consumes at least one character. -/
def pyReplaceAux (pat repl : List Char) : Nat → List Char → List Char
  | 0, s => s
  | _ + 1, [] => []
  | fuel + 1, c :: rest =>
    if pat ≠ [] ∧ pat.isPrefixOf (c :: rest) then
      repl ++ pyReplaceAux pat repl fuel (List.drop (pat.length - 1) rest)
    else
      c :: pyReplaceAux pat repl fuel rest

/-- Python `s.replace(pat, repl)`. -/
def pyReplace (s pat repl : String) : String :=
  String.mk (pyReplaceAux pat.data repl.data s.data.length s.data)

/-- Python `str.isspace()` on one character: the Unicode code points
CPython treats as whitespace (ASCII whitespace including vertical
tab and form feed, the C1 separators, NEL, NBSP, Ogham space mark, the
`U+2000`-`U+200A` spaces, line/paragraph separators, narrow no-break
space, medium mathematical space, ideographic space). -/
def pyIsSpace (c : Char) : Bool :=
  c.toNat ∈ [9, 10, 11, 12, 13, 28, 29, 30, 31, 32, 133, 160, 5760,
    8192, 8193, 8194, 8195, 8196, 8197, 8198, 8199, 8200, 8201, 8202,
    8232, 8233, 8239, 8287, 12288]

/-- Python `str.strip()` on a character list: drop whitespace (in the
`str.isspace()` sense) from both ends. -/
def pyStripList (l : List Char) : List Char :=
  ((l.dropWhile pyIsSpace).reverse.dropWhile pyIsSpace).reverse

/-- Python `s.strip()`. -/
def pyStrip (s : String) : String :=
  String.mk (pyStripList s.data)

/-- Python `s.split(':', 1)` when `':' in s`: the characters before the
first colon and the characters after it. -/
def splitFirstColon : List Char → List Char × List Char
  | [] => ([], [])
  | c :: rest =>
    if c = ':' then ([], rest)
    else
      let p := splitFirstColon rest
      (c :: p.1, p.2)

/-- Python `s.endswith(suffix)`. -/
def pyEndsWith (s suffix : String) : Bool :=
  suffix.data.isSuffixOf s.data

/-- Python `s[:k]` for an `int` index `k` (negative `k` counts from the
end; Python slicing never raises). -/
def pyTake (s : String) (k : Int) : String :=
  if 0 ≤ k then String.mk (s.data.take k.toNat)
  else String.mk (s.data.take (s.data.length - (-k).toNat))

/-- Python `value.split(',')[0]`: the characters before the first comma
(the whole string when there is no comma). -/
def beforeComma (s : String) : String :=
  String.mk (s.data.takeWhile (fun c => c ≠ ','))

/-! ## Data model (`st.session_state.label_config` and friends) -/

/-- `config['variable_settings'][var]`, with the defaults the source
supplies at every read site: `settings.get('font_size', 12)` and
`settings.get('new_line', True)`. -/
structure VarSettings where
  font_size : Nat := 12
  new_line : Bool := true
deriving Repr, DecidableEq

/-- The slice of `st.session_state.label_config` the rendering engine
reads.  `barcode_settings` is flattened into the three fields the code
uses (`height`, `show_text` with default `False`, `font_size` with
default `10`); `variable_settings` is the dict-with-defaults as a total
function.  `barcode_variable` uses the source's sentinel: the empty
string means "no barcode field" (`config.get('barcode_variable', '')`
is falsy in `if barcode_variable and ...`). -/
structure LabelConfig where
  width : Nat
  height : Nat
  variable_order : List String
  selected_variables : List String
  variable_settings : String → VarSettings
  barcode_variable : String := ""
  barcode_height : Nat := 40
  show_text : Bool := false
  barcode_font_size : Nat := 10

/-- A pandas row: `none` = field absent or null. -/
def Row : Type := String → Option String

/-- A Pillow RGB image, abstracted to its pixel dimensions. -/
structure LImage where
  width : Nat
  height : Nat
deriving Repr, DecidableEq

/-- A rectangle painted by `ImageDraw.rectangle` (pixel corners, as the
source passes them). -/
structure Rect where
  x0 : Int
  y0 : Int
  x1 : Int
  y1 : Int
deriving Repr, DecidableEq

/-- The fixed supersampling factor of `create_label_from_data`
(`scale_factor = 4`). -/
def scaleFactor : Nat := 4

/-- One entry of a text line under construction: the dict
`{'text','font','font_size','var_name','value'}` built in the grouping
loop of `create_label_from_data`.  `text` is derived
(`f"{var}: {value}"`), `font` is determined by `font_size`, so the model
keeps `name`, `value`, the (scaled) font size, and the field's
`new_line` setting. -/
structure FieldItem where
  name : String
  value : String
  fontSize : Nat
  newLine : Bool
deriving Repr, DecidableEq

/-- The `f"{var}: {value}"` text of a field. -/
def mkText (name value : String) : String :=
  name ++ ": " ++ value

/-! ## TextLineComposer: grouping fields into lines

`create_label_from_data`, lines 1079-1118: walk `variable_order`; keep a
field iff it is selected, is not the barcode field, is present and
non-null in the row, and its font loads; a `new_line` field first
flushes a non-empty current line, is appended, and the line is flushed
again at once; a `new_line = False` field is appended to the open line;
the open line is flushed after the loop. -/

/-- The loop of lines 1082-1118, with the loop state (`text_lines`,
`current_line`) as accumulators and the trailing flush of line 1117
built into the base case. -/
def groupAux (fontOk : Nat → Bool) (cfg : LabelConfig) (row : Row) :
    List String → List (List FieldItem) → List FieldItem → List (List FieldItem)
  | [], lines, cur => lines ++ if cur = [] then [] else [cur]
  | var :: rest, lines, cur =>
    if var ∈ cfg.selected_variables ∧ var ≠ cfg.barcode_variable then
      match row var with
      | some v =>
        let st := cfg.variable_settings var
        let fs := st.font_size * scaleFactor
        if fontOk fs then
          let item : FieldItem := ⟨var, v, fs, st.new_line⟩
          if st.new_line then
            groupAux fontOk cfg row rest ((lines ++ if cur = [] then [] else [cur]) ++ [[item]]) []
          else
            groupAux fontOk cfg row rest lines (cur ++ [item])
        else
          groupAux fontOk cfg row rest lines cur
      | none => groupAux fontOk cfg row rest lines cur
    else
      groupAux fontOk cfg row rest lines cur

/-- `text_lines` as it stands after line 1118 of
`create_label_from_data`. -/
def groupLines (fontOk : Nat → Bool) (cfg : LabelConfig) (row : Row) :
    List (List FieldItem) :=
  groupAux fontOk cfg row cfg.variable_order [] []

/-- The ordered list of fields the loop keeps: selected, not the barcode
field, present non-null in the row, font loaded.  (Used to state the
spec-side grouping.) -/
def presentFields (fontOk : Nat → Bool) (cfg : LabelConfig) (row : Row) :
    List FieldItem :=
  cfg.variable_order.filterMap fun var =>
    if var ∈ cfg.selected_variables ∧ var ≠ cfg.barcode_variable then
      match row var with
      | some v =>
        let st := cfg.variable_settings var
        if fontOk (st.font_size * scaleFactor) then
          some ⟨var, v, st.font_size * scaleFactor, st.new_line⟩
        else none
      | none => none
    else none

/-- Modelled from the spec's words (section 4.2, step 1), for the
refinement claim about line grouping: a `startsNewLine = true` field
closes the current line (if non-empty) and forms a line containing only
itself; a `startsNewLine = false` field is appended to the line being
built; the open line is flushed at the end. -/
def specGroupAux : List FieldItem → List FieldItem → List (List FieldItem)
  | cur, [] => if cur = [] then [] else [cur]
  | cur, f :: rest =>
    if f.newLine then
      (if cur = [] then [] else [cur]) ++ [f] :: specGroupAux [] rest
    else
      specGroupAux (cur ++ [f]) rest

/-- Spec-side grouping of an ordered list of present fields. -/
def specGroupLines (fields : List FieldItem) : List (List FieldItem) :=
  specGroupAux [] fields

/-! ## TextLineComposer: fitting a line into `maxWidth`

`create_label_from_data`, lines 1120-1191.  `maxWidth` is
`high_width - 40 * scale_factor`; `cw` is the uniform character width of
the font in play (see the header), so `draw.textlength(text, font)`
is `text.length * cw`. -/

/-- The field-name abbreviation of lines 1139 and 1160:
`var.replace('_',' ').replace('Manufacturer','Mfg').replace('Product','Prod')`. -/
def abbrevName (name : String) : String :=
  pyReplace (pyReplace (pyReplace name "_" " ") "Manufacturer" "Mfg") "Product" "Prod"

/-- Single-field line fitting, lines 1127-1153.  With the uniform metric,
`avg_char_width = text_width / len(text)` is exactly `cw`, so
`max_chars = int(max_width / avg_char_width) - 3` is
`maxWidth / cw - 3` (an `int`, possibly negative). -/
def fitSingleText (cw maxWidth : Nat) (name value : String) : String :=
  let text := mkText name value
  if text.length * cw > maxWidth then
    let shortVar := abbrevName name
    let text2 := mkText shortVar value
    if text2.length * cw > maxWidth then
      let maxChars : Int := (maxWidth / cw : Nat) - 3
      if (text2.length : Int) > maxChars then
        let commaText := shortVar ++ ": " ++ beforeComma value ++ "..."
        if ',' ∈ value.data ∧ (commaText.length : Int) ≤ maxChars then commaText
        else pyTake text2 maxChars ++ "..."
      else text2
    else text2
  else text

/-- The compact `f"{short_var}: {item['value']}"` text of lines
1160-1161. -/
def compactText (item : FieldItem) : String :=
  abbrevName item.name ++ ": " ++ item.value

/-- Per-item truncation of an overflowing multi-field line, lines
1178-1187: split the compact text at its first colon, strip the value
part, cut it to 8 characters plus an ellipsis when longer than 8. -/
def truncateCompact (s : String) : String :=
  if ':' ∈ s.data then
    let p := splitFirstColon s.data
    let valPart := pyStripList p.2
    let valPart2 := if valPart.length > 8 then valPart.take 8 ++ "...".data else valPart
    String.mk (p.1 ++ (':' :: ' ' :: valPart2))
  else s

/-- The largest font size on a line (`max(item[2] for item in line_items)`). -/
def maxFontSize (line : List FieldItem) : Nat :=
  (line.map (fun item => item.fontSize)).foldl max 0

/-- Multi-field line processing, lines 1155-1191: join the compact texts
with `"  |  "`, measure at the line's largest font size; on overflow,
truncate each value independently and rejoin.  Returns `none` when the
largest font fails to load (the source then appends nothing: the line is
dropped). -/
def processMultiLine (fontOk : Nat → Bool) (cwOf : Nat → Nat) (maxWidth : Nat)
    (line : List FieldItem) : Option (String × Nat) :=
  let lineItems := line.map compactText
  let combined := String.intercalate "  |  " lineItems
  let maxFont := maxFontSize line
  if fontOk maxFont then
    let cw := cwOf maxFont
    let combined2 :=
      if combined.length * cw > maxWidth then
        String.intercalate "  |  " (lineItems.map truncateCompact)
      else combined
    some (combined2, maxFont)
  else none

/-- Processing of one grouped line, lines 1122-1191: empty lines are
skipped, a single-field line goes through `fitSingleText` at its own
font, a multi-field line through `processMultiLine`. -/
def processLine (fontOk : Nat → Bool) (cwOf : Nat → Nat) (maxWidth : Nat) :
    List FieldItem → Option (String × Nat)
  | [] => none
  | [item] => some (fitSingleText (cwOf item.fontSize) maxWidth item.name item.value,
      item.fontSize)
  | line => processMultiLine fontOk cwOf maxWidth line

/-- `processed_lines` as it stands after line 1191: each element is one
drawable string with its font size. -/
def processedLines (fontOk : Nat → Bool) (cwOf : Nat → Nat) (maxWidth : Nat)
    (lines : List (List FieldItem)) : List (String × Nat) :=
  lines.filterMap (processLine fontOk cwOf maxWidth)

/-! ## BarcodeRenderer

`draw_visual_barcode_scaled` (lines 1295-1321) and
`add_high_quality_barcode` (lines 1224-1293). -/

/-- `draw_visual_barcode_scaled`: the list of black bar rectangles it
draws (the white background rectangle it paints first is not recorded).
With an empty `data` string, `bar_count = min(0 * 4, 60) = 0` and the
Python line `bar_width = max(3, (width - 30) // bar_count)` raises
`ZeroDivisionError`, modelled by `none`. -/
def draw_visual_barcode_scaled (x y width height : Int) (data : String) :
    Option (List Rect) :=
  let dataStr := data.data
  let barCount := min (dataStr.length * 4) 60
  if barCount = 0 then none
  else
    let barWidth : Int := max 3 ((width - 30).fdiv barCount)
    some ((List.range barCount).filterMap fun i =>
      let charCode := (dataStr.getD (i % dataStr.length) ' ').toNat
      let barHeight : Int :=
        if charCode % 4 = 0 then height - 12
        else if charCode % 3 = 0 then height - 18
        else height - 9
      let xPos := x + 15 + (i : Int) * barWidth
      if (charCode + i) % 3 ≠ 0 then
        some ⟨xPos, y + 6, xPos + barWidth - 1, y + 6 + barHeight⟩
      else none)

/-- What `add_high_quality_barcode` painted: a real Code 128 render,
resized to `(w, h)` and pasted at `(x, y)`, or the fallback visual
bars. -/
inductive BarcodeRender where
  | encoded (w h x y : Int)
  | visual (bars : List Rect)
deriving Repr, DecidableEq

/-- `add_high_quality_barcode`, lines 1224-1293.  The caption of lines
1285-1293 (`show_text`) is plain text drawn after the barcode and cannot
raise (a failed font load skips it), so it is not recorded.  The
`except Exception` of line 1275 covers only the encoder path: an
exception out of the fallback inside the handler (or on the
`BARCODE_AVAILABLE = False` path) propagates to the caller, hence the
`Option` threading. -/
def add_high_quality_barcode (available : Bool) (encode : String → Option LImage)
    (imgWidth imgHeight : Int) (cfg : LabelConfig) (barcodeData : String) :
    Option BarcodeRender :=
  let sf : Int := (scaleFactor : Nat)
  let barcodeHeight := (cfg.barcode_height : Int) * sf
  let textHeight : Int :=
    if cfg.show_text then (cfg.barcode_font_size : Int) * sf + 8 * sf else 0
  let bottomMargin := 20 * sf
  let barcodeY := imgHeight - barcodeHeight - textHeight - bottomMargin - 10 * sf
  let barcodeWidth := imgWidth - 40 * sf
  let barcodeX := (imgWidth - barcodeWidth).fdiv 2
  if available then
    match encode barcodeData with
    | some _raw => some (.encoded barcodeWidth barcodeHeight barcodeX barcodeY)
    | none =>
      (draw_visual_barcode_scaled barcodeX barcodeY barcodeWidth barcodeHeight
        barcodeData).map .visual
  else
    (draw_visual_barcode_scaled barcodeX barcodeY barcodeWidth barcodeHeight
      barcodeData).map .visual

/-! ## LabelRenderer: `create_label_from_data`, lines 1047-1222 -/

/-- `create_label_from_data`.  The working canvas is
`4 * width × 4 * height`; the text block is composed (grouping plus
fitting) and drawn; the barcode layer runs when `barcode_variable` is
set (non-empty, Python truthiness) and the row value is non-null, and
its exception — the only uncaught one in the body — propagates;
`add_logo_to_image` swallows every exception (lines 1388-1390), so the
logo layer cannot fail; finally the canvas is downsampled to
`(width, height)`, the returned image.  Text, barcode and logo drawing
mutate the canvas without changing its size, so the image model carries
the dimensions. -/
def create_label_from_data (available : Bool) (encode : String → Option LImage)
    (cwOf : Nat → Nat) (fontOk : Nat → Bool) (cfg : LabelConfig) (row : Row) :
    Option LImage :=
  let width := cfg.width
  let height := cfg.height
  let highWidth := width * scaleFactor
  let highHeight := height * scaleFactor
  let maxWidth := highWidth - 40 * scaleFactor
  let _lines := processedLines fontOk cwOf maxWidth (groupLines fontOk cfg row)
  let barcodeStep : Option Unit :=
    if cfg.barcode_variable ≠ "" then
      match row cfg.barcode_variable with
      | some v =>
        (add_high_quality_barcode available encode (highWidth : Int) (highHeight : Int)
          cfg v).map fun _ => ()
      | none => some ()
    else some ()
  barcodeStep.map fun _ => { width := width, height := height }

/-! ## BatchRenderer: `generate_png_labels`, lines 1021-1045 -/

/-- `f"label_{n:04d}"`: `n` zero-padded on the left to at least four
digits. -/
def pad4 (n : Nat) : String :=
  String.mk (List.replicate (4 - (toString n).length) '0') ++ toString n

/-- The archive entry name `f"label_{index + 1:04d}.png"` for the row at
dataframe index `index`. -/
def labelName (n : Nat) : String :=
  "label_" ++ pad4 n ++ ".png"

/-- `generate_png_labels`: iterate `df.iterrows()` — pairs of the
dataframe index and the row, in input order — and for each row try to
render; on success write the image to the zip under
`f"label_{index + 1:04d}.png"`, on any exception skip the row (after a
warning) and continue.  The zip archive is modelled as the ordered list
of (entry name, image) pairs; `render` is `create_label_from_data` with
its environment fixed (`none` = the row's render raised). -/
def generate_png_labels (render : Row → Option LImage) :
    List (Nat × Row) → List (String × LImage)
  | [] => []
  | (index, row) :: rest =>
    match render row with
    | some img => (labelName (index + 1), img) :: generate_png_labels render rest
    | none => generate_png_labels render rest

/-! ## LogoCompositor: `add_logo_to_image`, lines 1323-1390 -/

/-- The computed geometry of the pasted logo: its resized dimensions and
the top-left paste position. -/
structure LogoPlacement where
  lw : Nat
  lh : Nat
  x : Int
  y : Int
deriving Repr, DecidableEq

/-- Lines 1345-1352: resize preserving aspect ratio.
`logo_aspect = w / h` compares `> 1` exactly when `w > h` (positive
integers); `int(logo_size / logo_aspect)` is `size * h / w` and
`int(logo_size * logo_aspect)` is `size * w / h`, Python float division
followed by `int` truncation modelled as exact floor division. -/
def logoScaledDims (srcW srcH size : Nat) : Nat × Nat :=
  if srcH < srcW then (size, size * srcH / srcW)
  else (size * srcW / srcH, size)

/-- Lines 1341-1378 of `add_logo_to_image`: the resized dimensions and
the position computed for each of the six anchors (an unknown position
string falls back to top-right).  `size` and `margin` are the already
scaled `logo_settings['size'] * scale_factor` and
`logo_settings['margin'] * scale_factor`. -/
def add_logo_to_image (srcW srcH size margin : Nat) (position : String)
    (width height : Nat) : LogoPlacement :=
  let dims := logoScaledDims srcW srcH size
  let lw := dims.1
  let lh := dims.2
  let pos : Int × Int :=
    if position = "top-left" then ((margin : Int), (margin : Int))
    else if position = "top-center" then (((width : Int) - lw).fdiv 2, (margin : Int))
    else if position = "top-right" then ((width : Int) - lw - margin, (margin : Int))
    else if position = "bottom-left" then ((margin : Int), (height : Int) - lh - margin)
    else if position = "bottom-center" then
      (((width : Int) - lw).fdiv 2, (height : Int) - lh - margin)
    else if position = "bottom-right" then
      ((width : Int) - lw - margin, (height : Int) - lh - margin)
    else ((width : Int) - lw - margin, (margin : Int))
  ⟨lw, lh, pos.1, pos.2⟩

/-! ## Spec-side description of the fallback bar pattern

Modelled from the spec's words (section 4.3, fallback path), to compare
with `draw_visual_barcode_scaled`: bar count `min(4 * len(value), 60)`,
per-bar presence and height derived from each character's code point
(`code mod 3`, `code mod 4`) and the bar index. -/

/-- The code point driving bar `i`: the character at `i mod len`. -/
def specCharCode (data : String) (i : Nat) : Nat :=
  (data.data.getD (i % data.data.length) ' ').toNat

/-- The spec's bar count: `min(4 * len(value), cap)` with `cap = 60`. -/
def specBarCount (data : String) : Nat :=
  min (4 * data.length) 60

/-- Bar `i` is present iff `(code + i) mod 3 ≠ 0`. -/
def specBarPresent (data : String) (i : Nat) : Prop :=
  (specCharCode data i + i) % 3 ≠ 0

instance (data : String) (i : Nat) : Decidable (specBarPresent data i) :=
  inferInstanceAs (Decidable ((specCharCode data i + i) % 3 ≠ 0))

/-- Bar height from the code point: `code mod 4`, then `code mod 3`,
else the default. -/
def specBarHeight (height : Int) (code : Nat) : Int :=
  if code % 4 = 0 then height - 12
  else if code % 3 = 0 then height - 18
  else height - 9

/-- The uniform bar width of the pattern. -/
def specBarWidth (width : Int) (data : String) : Int :=
  max 3 ((width - 30).fdiv (specBarCount data))

/-- The rectangle of bar `i`. -/
def specBarRect (x y width height : Int) (data : String) (i : Nat) : Rect :=
  let bw := specBarWidth width data
  let xPos := x + 15 + (i : Int) * bw
  ⟨xPos, y + 6, xPos + bw - 1, y + 6 + specBarHeight height (specCharCode data i)⟩

/-- The full deterministic pattern: one rectangle for each present bar
index below the bar count. -/
def specBars (x y width height : Int) (data : String) : List Rect :=
  (List.range (specBarCount data)).filterMap fun i =>
    if specBarPresent data i then some (specBarRect x y width height data i)
    else none

/-! ## Concrete instances used by the claims' witnesses and
counterexamples -/

/-- A three-field configuration: `A` starts a new line, `B` and `C`
share the following line. -/
def cfgABC : LabelConfig where
  width := 400
  height := 200
  variable_order := ["A", "B", "C"]
  selected_variables := ["A", "B", "C"]
  variable_settings := fun var =>
    if var = "A" then { font_size := 12, new_line := true }
    else { font_size := 10, new_line := false }

/-- A row giving every one of `A`, `B`, `C` a value. -/
def rowABC : Row := fun name =>
  if name = "A" then some "alpha"
  else if name = "B" then some "beta"
  else if name = "C" then some "gamma"
  else none

/-- A configuration whose barcode field is `SKU`. -/
def cfgSKU : LabelConfig where
  width := 400
  height := 200
  variable_order := ["Name"]
  selected_variables := ["Name"]
  variable_settings := fun _ => {}
  barcode_variable := "SKU"

/-- A row whose `SKU` value is the empty string. -/
def rowEmptySKU : Row := fun name =>
  if name = "SKU" then some "" else if name = "Name" then some "Widget" else none

/-- A no-barcode configuration used to exercise the happy path. -/
def cfgPlain : LabelConfig where
  width := 400
  height := 200
  variable_order := ["Name", "SKU"]
  selected_variables := ["Name", "SKU"]
  variable_settings := fun _ => {}

/-- A row with plain values for `cfgPlain`. -/
def rowPlain : Row := fun name =>
  if name = "Name" then some "Widget A"
  else if name = "SKU" then some "SKU001"
  else none

/-- The row at dataframe index `j` of the batch examples: a single `id`
column holding `j` as text. -/
def rowIdx (j : Nat) : Row := fun name =>
  if name = "id" then some (toString j) else none

/-- A renderer that raises exactly on the row whose `id` is `1`. -/
def renderFail1 : Row → Option LImage := fun row =>
  if row "id" = some "1" then none else some ⟨400, 200⟩

/-- A renderer that raises exactly on the row whose `id` is `2`. -/
def renderFail2 : Row → Option LImage := fun row =>
  if row "id" = some "2" then none else some ⟨400, 200⟩

/-- A three-row table with the default range index. -/
def rowsC3 : List (Nat × Row) :=
  [(0, rowIdx 0), (1, rowIdx 1), (2, rowIdx 2)]

/-- The five-row table of the batch claim, rows before the failing one. -/
def rowsC5pre : List (Nat × Row) :=
  [(0, rowIdx 0), (1, rowIdx 1)]

/-- The five-row table of the batch claim, rows after the failing one. -/
def rowsC5post : List (Nat × Row) :=
  [(3, rowIdx 3), (4, rowIdx 4)]

/-! ## Spec-side description of multi-field truncation

Modelled from the spec's words (section 4.2, step 3), to compare with
`processMultiLine`. -/

/-- The spec's per-value cut: values longer than 8 characters are cut to
8 characters plus an ellipsis. -/
def cut8 (v : String) : String :=
  if v.length > 8 then String.mk (v.data.take 8) ++ "..." else v

/-- The spec's rendering of one field of a multi-field line:
`"{abbrev}: {value}"`. -/
def specMultiPiece (item : FieldItem) : String :=
  abbrevName item.name ++ ": " ++ item.value

/-- The spec's multi-field line: pieces joined with `"  |  "`; if the
joined string's measured width exceeds `maxWidth`, each value is cut by
`cut8` independently and the pieces are rejoined. -/
def specMultiLine (cw maxWidth : Nat) (line : List FieldItem) : String :=
  let joined := String.intercalate "  |  " (line.map specMultiPiece)
  if joined.length * cw > maxWidth then
    String.intercalate "  |  " (line.map fun item =>
      abbrevName item.name ++ ": " ++ cut8 item.value)
  else joined

/-- A concrete two-field line whose joined text overflows. -/
def lineTwoFields : List FieldItem :=
  [⟨"Manufacturer", "LongValue123", 40, true⟩, ⟨"SKU", "SKU001", 48, false⟩]

/-- A concrete overflowing two-field line whose first value carries
surrounding whitespace (`" ABC "`). -/
def lineSpacedValue : List FieldItem :=
  [⟨"Name", " ABC ", 48, true⟩, ⟨"SKU", "SKU001", 48, false⟩]

/-! ## Lemmas: the grouping loop refines the spec-side grouping -/

/-- Lines already flushed are a passive prefix of the loop state. -/
theorem groupAux_append (fontOk : Nat → Bool) (cfg : LabelConfig) (row : Row)
    (l : List String) (lines : List (List FieldItem)) (cur : List FieldItem) :
    groupAux fontOk cfg row l lines cur = lines ++ groupAux fontOk cfg row l [] cur := by
  induction l generalizing lines cur with
  | nil => simp [groupAux]
  | cons var rest ih =>
    simp only [groupAux]
    by_cases hsel : var ∈ cfg.selected_variables ∧ var ≠ cfg.barcode_variable
    · simp only [if_pos hsel]
      cases hrow : row var with
      | none => exact ih lines cur
      | some v =>
        simp only
        by_cases hfont : fontOk ((cfg.variable_settings var).font_size * scaleFactor)
        · simp only [if_pos hfont]
          by_cases hnl : (cfg.variable_settings var).new_line
          · simp only [if_pos hnl]
            rw [ih, ih (([] ++ if cur = [] then [] else [cur]) ++ _)]
            simp [List.append_assoc]
          · simp only [if_neg hnl]
            exact ih lines (cur ++ _)
        · simp only [if_neg hfont]
          exact ih lines cur
    · simp only [if_neg hsel]
      exact ih lines cur

/-- The grouping loop refines the spec-side grouping: starting from an
open line `cur`, the loop over the remaining variables produces exactly
the spec-side grouping of the fields it keeps. -/
theorem groupAux_eq_specGroupAux (fontOk : Nat → Bool) (cfg : LabelConfig) (row : Row)
    (l : List String) (cur : List FieldItem) :
    groupAux fontOk cfg row l [] cur =
      specGroupAux cur (l.filterMap fun var =>
        if var ∈ cfg.selected_variables ∧ var ≠ cfg.barcode_variable then
          match row var with
          | some v =>
            if fontOk ((cfg.variable_settings var).font_size * scaleFactor) then
              some ⟨var, v, (cfg.variable_settings var).font_size * scaleFactor,
                (cfg.variable_settings var).new_line⟩
            else none
          | none => none
        else none) := by
  induction l generalizing cur with
  | nil => simp [groupAux, specGroupAux]
  | cons var rest ih =>
    simp only [groupAux, List.filterMap_cons]
    by_cases hsel : var ∈ cfg.selected_variables ∧ var ≠ cfg.barcode_variable
    · simp only [if_pos hsel]
      cases hrow : row var with
      | none => exact ih cur
      | some v =>
        simp only
        by_cases hfont : fontOk ((cfg.variable_settings var).font_size * scaleFactor)
        · simp only [if_pos hfont]
          by_cases hnl : (cfg.variable_settings var).new_line
          · simp only [if_pos hnl, specGroupAux]
            rw [groupAux_append, ih]
            simp [specGroupAux, hnl]
          · simp only [if_neg hnl, specGroupAux]
            rw [ih]
        · simp only [if_neg hfont]
          exact ih cur
    · simp only [if_neg hsel]
      exact ih cur

/-- `groupLines` is the spec-side grouping of the kept fields. -/
theorem groupLines_eq_specGroupLines (fontOk : Nat → Bool) (cfg : LabelConfig) (row : Row) :
    groupLines fontOk cfg row = specGroupLines (presentFields fontOk cfg row) := by
  unfold groupLines specGroupLines presentFields
  exact groupAux_eq_specGroupAux fontOk cfg row cfg.variable_order []

/-- Every field in a grouped line came from the open line or the input
list. -/
theorem mem_specGroupAux (cur fields : List FieldItem) (line : List FieldItem)
    (item : FieldItem) (hline : line ∈ specGroupAux cur fields) (hitem : item ∈ line) :
    item ∈ cur ∨ item ∈ fields := by
  induction fields generalizing cur with
  | nil =>
    simp only [specGroupAux] at hline
    split at hline
    · simp at hline
    · simp only [List.mem_singleton] at hline
      exact Or.inl (hline ▸ hitem)
  | cons f rest ih =>
    simp only [specGroupAux] at hline
    split at hline
    · rw [List.mem_append] at hline
      rcases hline with h | h
      · split at h
        · simp at h
        · simp only [List.mem_singleton] at h
          exact Or.inl (h ▸ hitem)
      · rw [List.mem_cons] at h
        rcases h with h | h
        · subst h
          simp only [List.mem_singleton] at hitem
          exact Or.inr (hitem ▸ List.mem_cons_self ..)
        · rcases ih [] h with h' | h'
          · simp at h'
          · exact Or.inr (List.mem_cons_of_mem _ h')
    · rcases ih (cur ++ [f]) hline with h' | h'
      · rw [List.mem_append] at h'
        rcases h' with h' | h'
        · exact Or.inl h'
        · simp only [List.mem_singleton] at h'
          exact Or.inr (h' ▸ List.mem_cons_self ..)
      · exact Or.inr (List.mem_cons_of_mem _ h')

/-- Every kept field is selected, distinct from the barcode field, and
present non-null in the row with the recorded value. -/
theorem mem_presentFields (fontOk : Nat → Bool) (cfg : LabelConfig) (row : Row)
    (item : FieldItem) (h : item ∈ presentFields fontOk cfg row) :
    item.name ∈ cfg.selected_variables ∧ item.name ≠ cfg.barcode_variable ∧
      row item.name = some item.value := by
  unfold presentFields at h
  rw [List.mem_filterMap] at h
  obtain ⟨var, -, hvar⟩ := h
  by_cases hsel : var ∈ cfg.selected_variables ∧ var ≠ cfg.barcode_variable
  · rw [if_pos hsel] at hvar
    cases hrow : row var with
    | none => rw [hrow] at hvar; simp at hvar
    | some v =>
      rw [hrow] at hvar
      simp only at hvar
      split at hvar
      · rw [Option.some_inj] at hvar
        subst hvar
        exact ⟨hsel.1, hsel.2, hrow⟩
      · simp at hvar
  · rw [if_neg hsel] at hvar
    simp at hvar

/-! ## Claim theorems -/

/-- C1: walking the configured field order over the present non-null
fields, a `startsNewLine = true` field closes any non-empty open line
and forms a line containing only itself, and a `startsNewLine = false`
field is appended to the line being built (`groupLines` equals the
spec-side grouping of the kept fields); in particular
`[A:new_line=true, B:new_line=false, C:new_line=false]` partitions as
exactly `[[A],[B,C]]`. -/
theorem c1_line_grouping :
    (∀ (fontOk : Nat → Bool) (cfg : LabelConfig) (row : Row),
        groupLines fontOk cfg row = specGroupLines (presentFields fontOk cfg row)) ∧
    (groupLines (fun _ => true) cfgABC rowABC).map (fun l => l.map (fun i => i.name)) =
      [["A"], ["B", "C"]] :=
  ⟨groupLines_eq_specGroupLines, by decide⟩

/-- C7: every field item on a produced text line is selected, is present
and non-null in the row (with exactly the value the row holds), and is
not the barcode field; contrapositively an absent/null field and the
barcode field contribute no text, and the grouping itself is total (no
error). -/
theorem c7_field_filtering (fontOk : Nat → Bool) (cfg : LabelConfig) (row : Row)
    (line : List FieldItem) (item : FieldItem)
    (hline : line ∈ groupLines fontOk cfg row) (hitem : item ∈ line) :
    row item.name = some item.value ∧ item.name ≠ cfg.barcode_variable ∧
      item.name ∈ cfg.selected_variables := by
  rw [groupLines_eq_specGroupLines] at hline
  rcases mem_specGroupAux [] _ line item hline hitem with h | h
  · simp at h
  · obtain ⟨h1, h2, h3⟩ := mem_presentFields fontOk cfg row item h
    exact ⟨h3, h2, h1⟩

/-- C7 witness: the field `A` of the concrete grouping. -/
theorem c7_field_filtering_witness :
    rowABC "A" = some "alpha" ∧ "A" ≠ cfgABC.barcode_variable ∧
      "A" ∈ cfgABC.selected_variables :=
  c7_field_filtering (fun _ => true) cfgABC rowABC
    [⟨"A", "alpha", 48, true⟩] ⟨"A", "alpha", 48, true⟩ (by decide) (by decide)

/-- C3 counterexample: with the default range index `0, 1, 2` and the
render of index `1` raising, the second entry written to the archive is
named `label_0003.png`, not `label_0002.png`: names follow the dataframe
index, not the count of entries written. -/
theorem c3_counterexample :
    (generate_png_labels renderFail1 rowsC3).map Prod.fst =
      ["label_0001.png", "label_0003.png"] ∧
    (generate_png_labels renderFail1 rowsC3).map Prod.fst ≠
      ["label_0001.png", "label_0002.png"] := by decide

/-- C3 amended: each successfully rendered row is stored under
`label_%04d.png` of its dataframe index plus one, in input order — so
the names are the `index + 1` of exactly the successful rows, and they
are sequential in the count of entries only when the index is the
default range and no row is skipped. -/
theorem c3_index_naming (render : Row → Option LImage) (rows : List (Nat × Row)) :
    (generate_png_labels render rows).map Prod.fst =
      (rows.filter fun p => (render p.2).isSome).map fun p => labelName (p.1 + 1) := by
  induction rows with
  | nil => rfl
  | cons p rest ih =>
    obtain ⟨index, row⟩ := p
    simp only [generate_png_labels, List.filter_cons]
    cases h : render row with
    | some img => simp [h, ih]
    | none => simp [h, ih]

/-- C5: a row whose render raises is skipped and the batch continues
with the remaining rows (the archive splits around it); the archive
holds exactly one entry per successful row; in particular the five-row
table whose third row fails yields exactly four entries. -/
theorem c5_batch_partial :
    (∀ (render : Row → Option LImage) (pre post : List (Nat × Row)) (index : Nat) (row : Row),
        render row = none →
        generate_png_labels render (pre ++ (index, row) :: post) =
          generate_png_labels render pre ++ generate_png_labels render post) ∧
    (∀ (render : Row → Option LImage) (rows : List (Nat × Row)),
        (generate_png_labels render rows).length =
          (rows.filter fun p => (render p.2).isSome).length) ∧
    (generate_png_labels renderFail2 (rowsC5pre ++ (2, rowIdx 2) :: rowsC5post)).length = 4 := by
  refine ⟨?_, ?_, by decide⟩
  · intro render pre post index row h
    induction pre with
    | nil => simp [generate_png_labels, h]
    | cons p rest ih =>
      obtain ⟨i2, r2⟩ := p
      simp only [List.cons_append, generate_png_labels]
      cases render r2 <;> simp [ih]
  · intro render rows
    induction rows with
    | nil => rfl
    | cons p rest ih =>
      obtain ⟨i2, r2⟩ := p
      simp only [generate_png_labels, List.filter_cons]
      cases h : render r2 with
      | some img => simp [h, ih]
      | none => simp [h, ih]

/-- C5 witness: the concrete five-row batch with the third row failing
splits around the failing row. -/
theorem c5_batch_partial_witness :
    generate_png_labels renderFail2 (rowsC5pre ++ (2, rowIdx 2) :: rowsC5post) =
      generate_png_labels renderFail2 rowsC5pre ++ generate_png_labels renderFail2 rowsC5post :=
  c5_batch_partial.1 renderFail2 rowsC5pre rowsC5post 2 (rowIdx 2) (by decide)

/-- The fallback bar drawer succeeds on every non-empty value string. -/
theorem draw_visual_barcode_scaled_exists (x y w h : Int) (data : String)
    (hd : data ≠ "") : ∃ bars, draw_visual_barcode_scaled x y w h data = some bars := by
  have hlen : data.data ≠ [] := fun hnil => hd (by
    have hmk : data = String.mk data.data := rfl
    rw [hmk, hnil])
  have hne : ¬ min (data.data.length * 4) 60 = 0 := by
    have h0 : data.data.length ≠ 0 := fun h0 => hlen (List.length_eq_zero.mp h0)
    omega
  unfold draw_visual_barcode_scaled
  rw [if_neg hne]
  exact ⟨_, rfl⟩

/-- Mapping the fallback result into a `BarcodeRender` keeps it a
`some`-valued visual render. -/
theorem visual_map_exists (x y w h : Int) (data : String) (hd : data ≠ "") :
    ∃ bars, (draw_visual_barcode_scaled x y w h data).map BarcodeRender.visual =
      some (.visual bars) := by
  obtain ⟨bars, hb⟩ := draw_visual_barcode_scaled_exists x y w h data hd
  exact ⟨bars, by rw [hb]; rfl⟩

/-- C2 amended: for every non-empty value string, if the encoder is
unavailable or encoding raises, the renderer takes the fallback
visual-barcode path and returns without raising.  (For the empty string
the fallback itself raises `ZeroDivisionError`: see
`c2_counterexample`.) -/
theorem c2_fallback_no_raise (available : Bool) (encode : String → Option LImage)
    (imgWidth imgHeight : Int) (cfg : LabelConfig) (data : String)
    (hd : data ≠ "") (hfail : available = false ∨ encode data = none) :
    ∃ bars, add_high_quality_barcode available encode imgWidth imgHeight cfg data =
      some (.visual bars) := by
  unfold add_high_quality_barcode
  rcases hfail with h1 | h1
  · subst h1
    exact visual_map_exists _ _ _ _ data hd
  · cases available
    · exact visual_map_exists _ _ _ _ data hd
    · rw [h1]
      exact visual_map_exists _ _ _ _ data hd

/-- C2 witness: concrete unavailable-encoder call on `"AB"`. -/
theorem c2_fallback_no_raise_witness :
    ∃ bars, add_high_quality_barcode false (fun _ => none) 1600 800 cfgSKU "AB" =
      some (.visual bars) :=
  c2_fallback_no_raise false (fun _ => none) 1600 800 cfgSKU "AB" (by decide)
    (Or.inl rfl)

/-- C2 counterexample: on the empty value string with the encoder
unavailable, the fallback path raises (`ZeroDivisionError` from
`(width - 30) // bar_count` with `bar_count = 0`): the renderer does not
contain the failure. -/
theorem c2_counterexample :
    add_high_quality_barcode false (fun _ => none) 1600 800 cfgSKU "" = none := by
  decide

/-- C6 amended: whenever `create_label_from_data` returns an image, that
image has exactly the configured canvas dimensions (the 4x supersampled
canvas is downsampled back to `width x height`).  It does not always
return an image: see `c6_counterexample`. -/
theorem c6_output_dimensions (available : Bool) (encode : String → Option LImage)
    (cwOf : Nat → Nat) (fontOk : Nat → Bool) (cfg : LabelConfig) (row : Row)
    (img : LImage)
    (h : create_label_from_data available encode cwOf fontOk cfg row = some img) :
    img.width = cfg.width ∧ img.height = cfg.height := by
  unfold create_label_from_data at h
  rw [Option.map_eq_some'] at h
  obtain ⟨u, -, h2⟩ := h
  rw [← h2]
  exact ⟨rfl, rfl⟩

/-- C6 witness: the happy-path render of `cfgPlain` returns the
400 x 200 image of its canvas configuration. -/
theorem c6_output_dimensions_witness :
    (LImage.mk 400 200).width = cfgPlain.width ∧
      (LImage.mk 400 200).height = cfgPlain.height :=
  c6_output_dimensions false (fun _ => none) (fun _ => 10) (fun _ => true)
    cfgPlain rowPlain (LImage.mk 400 200) (by decide)

/-- C6 counterexample: a valid config and non-empty row (barcode field
`SKU` holding the empty string, encoder unavailable) on which the render
raises instead of returning an image. -/
theorem c6_counterexample :
    create_label_from_data false (fun _ => none) (fun _ => 10) (fun _ => true)
      cfgSKU rowEmptySKU = none := by decide

/-- C9: rendering is a pure function of its declared inputs (two renders
of the same row and config are identical — the embedding carries no
other state), and the fallback pattern for a non-empty value is exactly
the deterministic spec pattern: `min(4 * len, 60)` bar slots, bar `i`
present iff `(code + i) mod 3 ≠ 0`, height from `code mod 4` /
`code mod 3`, where `code` is the code point of the character at
`i mod len`. -/
theorem c9_determinism :
    (∀ available encode cwOf fontOk cfg row,
        create_label_from_data available encode cwOf fontOk cfg row =
          create_label_from_data available encode cwOf fontOk cfg row) ∧
    ∀ (x y w h : Int) (data : String), data ≠ "" →
      draw_visual_barcode_scaled x y w h data = some (specBars x y w h data) := by
  refine ⟨fun _ _ _ _ _ _ => rfl, fun x y w h data hd => ?_⟩
  have hlen : data.data ≠ [] := fun hnil => hd (by
    have hmk : data = String.mk data.data := rfl
    rw [hmk, hnil])
  have hne : ¬ min (data.data.length * 4) 60 = 0 := by
    have h0 : data.data.length ≠ 0 := fun h0 => hlen (List.length_eq_zero.mp h0)
    omega
  have hcount : specBarCount data = min (data.data.length * 4) 60 := by
    unfold specBarCount
    rw [Nat.mul_comm]
    rfl
  unfold draw_visual_barcode_scaled specBars
  rw [if_neg hne, hcount]
  refine congrArg some (List.filterMap_congr ?_)
  intro i _
  unfold specBarPresent specBarRect specBarWidth specBarHeight specCharCode
  rw [hcount]

/-- C9 witness: the pattern equation evaluated on the value `"AB"`. -/
theorem c9_determinism_witness :
    draw_visual_barcode_scaled 0 0 1440 160 "AB" = some (specBars 0 0 1440 160 "AB") :=
  c9_determinism.2 0 0 1440 160 "AB" (by decide)

/-- A list is a Boolean prefix of itself followed by anything. -/
theorem isPrefixOf_append_self (l m : List Char) : l.isPrefixOf (l ++ m) = true := by
  induction l with
  | nil => simp [List.isPrefixOf]
  | cons c cs ih => simp [List.isPrefixOf, ih]

/-- A list is a Boolean suffix of anything followed by itself. -/
theorem isSuffixOf_append_self (l m : List Char) : l.isSuffixOf (m ++ l) = true := by
  unfold List.isSuffixOf
  rw [List.reverse_append]
  exact isPrefixOf_append_self l.reverse m.reverse

/-- Appending a suffix makes `pyEndsWith` hold. -/
theorem pyEndsWith_append (s t : String) : pyEndsWith (s ++ t) t = true := by
  unfold pyEndsWith
  rw [String.data_append]
  exact isSuffixOf_append_self t.data s.data

/-- Length of a non-negative Python slice. -/
theorem pyTake_length (s : String) (k : Int) (hk : 0 ≤ k) :
    (pyTake s k).length = min k.toNat s.data.length := by
  unfold pyTake
  rw [if_pos hk]
  exact List.length_take ..

/-- C4 amended: under the uniform character-width metric, when at least
three characters fit in `maxWidth` and the full `"name: value"` text
overflows, the drawn string measures at most `maxWidth` (equality is
possible), and it ends in an ellipsis unless abbreviating the field name
alone already made it fit. -/
theorem c4_truncation (cw maxWidth : Nat) (name value : String)
    (hcw : 0 < cw) (hroom : 3 * cw ≤ maxWidth)
    (hwide : (mkText name value).length * cw > maxWidth) :
    (fitSingleText cw maxWidth name value).length * cw ≤ maxWidth ∧
      (pyEndsWith (fitSingleText cw maxWidth name value) "..." = true ∨
        (mkText (abbrevName name) value).length * cw ≤ maxWidth) := by
  have hdiv3 : 3 ≤ maxWidth / cw := (Nat.le_div_iff_mul_le hcw).mpr hroom
  have hqmul : maxWidth / cw * cw ≤ maxWidth := Nat.div_mul_le_self maxWidth cw
  simp only [fitSingleText]
  rw [if_pos hwide]
  by_cases h2 : (mkText (abbrevName name) value).length * cw > maxWidth
  · rw [if_pos h2]
    have hql : maxWidth / cw < (mkText (abbrevName name) value).length :=
      Nat.lt_of_mul_lt_mul_right (lt_of_le_of_lt hqmul h2)
    have hcond : ((mkText (abbrevName name) value).length : Int) >
        ((maxWidth / cw : Nat) : Int) - 3 := by omega
    rw [if_pos hcond]
    by_cases hc : ',' ∈ value.data ∧
        ((abbrevName name ++ ": " ++ beforeComma value ++ "...").length : Int) ≤
          ((maxWidth / cw : Nat) : Int) - 3
    · rw [if_pos hc]
      have hlc : (abbrevName name ++ ": " ++ beforeComma value ++ "...").length ≤
          maxWidth / cw := by omega
      refine ⟨le_trans (Nat.mul_le_mul_right cw hlc) hqmul, Or.inl ?_⟩
      exact pyEndsWith_append (abbrevName name ++ ": " ++ beforeComma value) "..."
    · rw [if_neg hc]
      have hk : (0 : Int) ≤ ((maxWidth / cw : Nat) : Int) - 3 := by omega
      have hlen : (pyTake (mkText (abbrevName name) value)
          (((maxWidth / cw : Nat) : Int) - 3)).length = maxWidth / cw - 3 := by
        rw [pyTake_length _ _ hk]
        have hdata : (mkText (abbrevName name) value).data.length =
            (mkText (abbrevName name) value).length := rfl
        omega
      constructor
      · rw [String.length_append, hlen]
        have h3 : ("..." : String).length = 3 := rfl
        rw [h3]
        have : maxWidth / cw - 3 + 3 = maxWidth / cw := by omega
        rw [this]
        exact hqmul
      · exact Or.inl (pyEndsWith_append _ "...")
  · rw [if_neg h2]
    exact ⟨Nat.le_of_not_lt h2, Or.inr (Nat.le_of_not_lt h2)⟩

/-- C4 witness: a long value with no abbreviation effect is
character-truncated to fit with an ellipsis. -/
theorem c4_truncation_witness :
    (fitSingleText 10 100 "ABCDEFGH" "val456789012345678901234567890").length * 10 ≤ 100 ∧
      (pyEndsWith (fitSingleText 10 100 "ABCDEFGH" "val456789012345678901234567890") "..." =
          true ∨
        (mkText (abbrevName "ABCDEFGH") "val456789012345678901234567890").length * 10 ≤ 100) :=
  c4_truncation 10 100 "ABCDEFGH" "val456789012345678901234567890" (by decide) (by decide)
    (by decide)

/-- C4 counterexample: `"Manufacturer: X"` overflows at width 270 with
45-pixel characters, the abbreviation `"Mfg: X"` fits exactly, and the
drawn string neither is strictly narrower than `maxWidth` nor ends in an
ellipsis. -/
theorem c4_counterexample :
    fitSingleText 45 270 "Manufacturer" "X" = "Mfg: X" ∧
      (mkText "Manufacturer" "X").length * 45 > 270 ∧
      ¬ ((fitSingleText 45 270 "Manufacturer" "X").length * 45 < 270 ∧
          pyEndsWith (fitSingleText 45 270 "Manufacturer" "X") "..." = true) := by
  decide

/-- Splitting at the first colon of `before ++ ':' :: after` when
`before` has no colon. -/
theorem splitFirstColon_append (a rest : List Char) (h : ':' ∉ a) :
    splitFirstColon (a ++ ':' :: rest) = (a, rest) := by
  induction a with
  | nil => simp [splitFirstColon]
  | cons c cs ih =>
    have hc : ¬ c = ':' := fun hc => h (hc ▸ List.mem_cons_self ..)
    have ih2 := ih fun hm => h (List.mem_cons_of_mem _ hm)
    simp only [List.cons_append, splitFirstColon, if_neg hc]
    simp only [List.append_eq]
    rw [ih2]

/-- Stripping steps over a leading space. -/
theorem pyStripList_cons_space (l : List Char) :
    pyStripList (' ' :: l) = pyStripList l := by
  unfold pyStripList
  rw [List.dropWhile_cons_of_pos (by decide)]

/-- On the compact text of an item whose abbreviated name has no colon
and whose value is already stripped, the per-item truncation of the
overflow pass produces exactly the spec's `"{abbrev}: {cut8 value}"`. -/
theorem truncateCompact_compact (item : FieldItem)
    (hn : ':' ∉ (abbrevName item.name).data)
    (hv : pyStripList item.value.data = item.value.data) :
    truncateCompact (compactText item) = abbrevName item.name ++ ": " ++ cut8 item.value := by
  have hdata : (compactText item).data =
      (abbrevName item.name).data ++ ':' :: ' ' :: item.value.data := by
    unfold compactText
    rw [String.data_append, String.data_append, List.append_assoc]
    rfl
  have hmem : ':' ∈ (compactText item).data := by
    rw [hdata]
    exact List.mem_append_right _ (List.mem_cons_self ..)
  unfold truncateCompact
  rw [if_pos hmem, hdata, splitFirstColon_append _ _ hn]
  simp only
  rw [pyStripList_cons_space, hv]
  apply String.ext
  rw [String.data_append, String.data_append]
  unfold cut8
  have hdots : ("..." : String).data = ['.', '.', '.'] := rfl
  have hcolsp : (": " : String).data = [':', ' '] := rfl
  by_cases h8 : item.value.data.length > 8
  · have h8l : item.value.length > 8 := h8
    rw [if_pos h8, if_pos h8l, String.data_append, hdots, hcolsp]
    simp [List.append_assoc]
  · have h8l : ¬ item.value.length > 8 := h8
    rw [if_neg h8, if_neg h8l, hcolsp]
    simp [List.append_assoc]

/-- C8 amended: for a line of two or more fields whose largest font loads, whose
abbreviated names have no colon and whose values carry no surrounding
whitespace, the processed line is exactly the spec's multi-field policy:
pieces `"{abbrev}: {value}"` joined with `"  |  "` at the line's largest
font size, and on overflow each value longer than 8 characters is
independently cut to 8 characters plus an ellipsis before rejoining. -/
theorem c8_multi_field (fontOk : Nat → Bool) (cwOf : Nat → Nat) (maxWidth : Nat)
    (line : List FieldItem)
    (_hlen : 2 ≤ line.length)
    (hfont : fontOk (maxFontSize line) = true)
    (hn : ∀ item ∈ line, ':' ∉ (abbrevName item.name).data)
    (hv : ∀ item ∈ line, pyStripList item.value.data = item.value.data) :
    processMultiLine fontOk cwOf maxWidth line =
      some (specMultiLine (cwOf (maxFontSize line)) maxWidth line, maxFontSize line) := by
  have hpieces : line.map compactText = line.map specMultiPiece := rfl
  simp only [processMultiLine, specMultiLine, hfont, if_pos, hpieces]
  by_cases hover :
      (String.intercalate "  |  " (line.map specMultiPiece)).length *
        cwOf (maxFontSize line) > maxWidth
  · rw [if_pos hover, if_pos hover]
    have hmaps : (line.map specMultiPiece).map truncateCompact =
        line.map fun item => abbrevName item.name ++ ": " ++ cut8 item.value := by
      rw [List.map_map]
      exact List.map_congr_left fun item hitem =>
        truncateCompact_compact item (hn item hitem) (hv item hitem)
    rw [hmaps]
  · rw [if_neg hover, if_neg hover]

/-- C8 witness: the concrete overflowing two-field line. -/
theorem c8_multi_field_witness :
    processMultiLine (fun _ => true) (fun _ => 20) 600 lineTwoFields =
      some (specMultiLine 20 600 lineTwoFields, maxFontSize lineTwoFields) :=
  c8_multi_field (fun _ => true) (fun _ => 20) 600 lineTwoFields (by decide) (by decide)
    (by decide) (by decide)

/-- C8 counterexample: on the overflowing line whose first value is
`" ABC "`, the code's overflow pass re-splits each piece at its first
colon and strips the value part (lines 1181-1185), producing
`"Name: ABC"`, while the claimed policy (values of at most 8 characters
are kept unchanged) would keep `"Name:  ABC "`: the claim is false as
stated. -/
theorem c8_counterexample :
    processMultiLine (fun _ => true) (fun _ => 20) 100 lineSpacedValue =
      some ("Name: ABC  |  SKU: SKU001", 48) ∧
    specMultiLine 20 100 lineSpacedValue = "Name:  ABC   |  SKU: SKU001" ∧
    processMultiLine (fun _ => true) (fun _ => 20) 100 lineSpacedValue ≠
      some (specMultiLine 20 100 lineSpacedValue, maxFontSize lineSpacedValue) := by
  decide

/-- C10: the logo is scaled preserving aspect ratio so that the larger
output dimension equals `sizePx`, and the top-left placement for each of
the six anchor positions matches the documented formula — `marginPx` from
the relevant edges, and horizontally centered within one pixel of the
exact center for the center anchors — for a logo no larger than the
canvas. -/
theorem c10_logo_placement (srcW srcH size margin width height : Nat)
    (hW : 0 < srcW) (hH : 0 < srcH)
    (_hsw : size ≤ width) (_hsh : size ≤ height) :
    max (logoScaledDims srcW srcH size).1 (logoScaledDims srcW srcH size).2 = size ∧
    (add_logo_to_image srcW srcH size margin "top-left" width height).lw =
      (logoScaledDims srcW srcH size).1 ∧
    (add_logo_to_image srcW srcH size margin "top-left" width height).lh =
      (logoScaledDims srcW srcH size).2 ∧
    (add_logo_to_image srcW srcH size margin "top-left" width height).x = margin ∧
    (add_logo_to_image srcW srcH size margin "top-left" width height).y = margin ∧
    (add_logo_to_image srcW srcH size margin "top-right" width height).x =
      (width : Int) - (logoScaledDims srcW srcH size).1 - margin ∧
    (add_logo_to_image srcW srcH size margin "top-right" width height).y = margin ∧
    (add_logo_to_image srcW srcH size margin "bottom-left" width height).x = margin ∧
    (add_logo_to_image srcW srcH size margin "bottom-left" width height).y =
      (height : Int) - (logoScaledDims srcW srcH size).2 - margin ∧
    (add_logo_to_image srcW srcH size margin "bottom-right" width height).x =
      (width : Int) - (logoScaledDims srcW srcH size).1 - margin ∧
    (add_logo_to_image srcW srcH size margin "bottom-right" width height).y =
      (height : Int) - (logoScaledDims srcW srcH size).2 - margin ∧
    (add_logo_to_image srcW srcH size margin "top-center" width height).y = margin ∧
    0 ≤ (width : Int) - (logoScaledDims srcW srcH size).1 -
      2 * (add_logo_to_image srcW srcH size margin "top-center" width height).x ∧
    (width : Int) - (logoScaledDims srcW srcH size).1 -
      2 * (add_logo_to_image srcW srcH size margin "top-center" width height).x ≤ 1 ∧
    (add_logo_to_image srcW srcH size margin "bottom-center" width height).y =
      (height : Int) - (logoScaledDims srcW srcH size).2 - margin ∧
    0 ≤ (width : Int) - (logoScaledDims srcW srcH size).1 -
      2 * (add_logo_to_image srcW srcH size margin "bottom-center" width height).x ∧
    (width : Int) - (logoScaledDims srcW srcH size).1 -
      2 * (add_logo_to_image srcW srcH size margin "bottom-center" width height).x ≤ 1 := by
  have hmax : max (logoScaledDims srcW srcH size).1 (logoScaledDims srcW srcH size).2 =
      size := by
    unfold logoScaledDims
    by_cases hw : srcH < srcW
    · rw [if_pos hw]
      have hle : size * srcH / srcW ≤ size := by
        calc size * srcH / srcW ≤ size * srcW / srcW :=
              Nat.div_le_div_right (Nat.mul_le_mul_left size (le_of_lt hw))
          _ = size := Nat.mul_div_cancel size hW
      exact max_eq_left hle
    · rw [if_neg hw]
      have hle : size * srcW / srcH ≤ size := by
        calc size * srcW / srcH ≤ size * srcH / srcH :=
              Nat.div_le_div_right (Nat.mul_le_mul_left size (Nat.le_of_not_lt hw))
          _ = size := Nat.mul_div_cancel size hH
      exact max_eq_right hle
  have hcen : ∀ a : Int, 0 ≤ a - 2 * a.fdiv 2 ∧ a - 2 * a.fdiv 2 ≤ 1 := by
    intro a
    have heq : 2 * a.fdiv 2 + a.fmod 2 = a := Int.fdiv_add_fmod a 2
    have hnn : 0 ≤ a.fmod 2 := Int.fmod_nonneg' a (by decide)
    have hlt : a.fmod 2 < 2 := Int.fmod_lt_of_pos a (by decide)
    omega
  refine ⟨hmax, rfl, rfl, rfl, rfl, rfl, rfl, rfl, rfl, rfl, rfl, rfl, ?_, ?_, rfl, ?_, ?_⟩
  · exact (hcen ((width : Int) - (logoScaledDims srcW srcH size).1)).1
  · exact (hcen ((width : Int) - (logoScaledDims srcW srcH size).1)).2
  · exact (hcen ((width : Int) - (logoScaledDims srcW srcH size).1)).1
  · exact (hcen ((width : Int) - (logoScaledDims srcW srcH size).1)).2

/-- C10 witness: a 100 x 50 logo at size 60, margin 10 on a 400 x 200
canvas. -/
theorem c10_logo_placement_witness :
    max (logoScaledDims 100 50 60).1 (logoScaledDims 100 50 60).2 = 60 ∧
    (add_logo_to_image 100 50 60 10 "top-left" 400 200).lw =
      (logoScaledDims 100 50 60).1 ∧
    (add_logo_to_image 100 50 60 10 "top-left" 400 200).lh =
      (logoScaledDims 100 50 60).2 ∧
    (add_logo_to_image 100 50 60 10 "top-left" 400 200).x = 10 ∧
    (add_logo_to_image 100 50 60 10 "top-left" 400 200).y = 10 ∧
    (add_logo_to_image 100 50 60 10 "top-right" 400 200).x =
      (400 : Int) - (logoScaledDims 100 50 60).1 - 10 ∧
    (add_logo_to_image 100 50 60 10 "top-right" 400 200).y = 10 ∧
    (add_logo_to_image 100 50 60 10 "bottom-left" 400 200).x = 10 ∧
    (add_logo_to_image 100 50 60 10 "bottom-left" 400 200).y =
      (200 : Int) - (logoScaledDims 100 50 60).2 - 10 ∧
    (add_logo_to_image 100 50 60 10 "bottom-right" 400 200).x =
      (400 : Int) - (logoScaledDims 100 50 60).1 - 10 ∧
    (add_logo_to_image 100 50 60 10 "bottom-right" 400 200).y =
      (200 : Int) - (logoScaledDims 100 50 60).2 - 10 ∧
    (add_logo_to_image 100 50 60 10 "top-center" 400 200).y = 10 ∧
    0 ≤ (400 : Int) - (logoScaledDims 100 50 60).1 -
      2 * (add_logo_to_image 100 50 60 10 "top-center" 400 200).x ∧
    (400 : Int) - (logoScaledDims 100 50 60).1 -
      2 * (add_logo_to_image 100 50 60 10 "top-center" 400 200).x ≤ 1 ∧
    (add_logo_to_image 100 50 60 10 "bottom-center" 400 200).y =
      (200 : Int) - (logoScaledDims 100 50 60).2 - 10 ∧
    0 ≤ (400 : Int) - (logoScaledDims 100 50 60).1 -
      2 * (add_logo_to_image 100 50 60 10 "bottom-center" 400 200).x ∧
    (400 : Int) - (logoScaledDims 100 50 60).1 -
      2 * (add_logo_to_image 100 50 60 10 "bottom-center" 400 200).x ≤ 1 :=
  c10_logo_placement 100 50 60 10 400 200 (by decide) (by decide) (by decide) (by decide)
